import Mathlib

/-!
Verification development for the task-routing and contextual-memory
orchestration workflow of the Fix-The-Doc repository.

The definitions below are a shallow embedding of the TypeScript sources
src/lib/advanced-ai-orchestrator.ts (the primary orchestrator, called the
lib variant below) and src/unnamed/part_000 (a second variant of the same
workflow backed by an in-process memory map).  External collaborators
(the embedding provider, the two completion providers, the file system and
the vector-index backend) are modelled as opaque functions supplied through
an environment record; a failed provider call is modelled as `none`.
Floating-point numbers are idealised as real numbers for the similarity
arithmetic and as rationals for the stored match scores.
-/

namespace FixTheDoc

/-! ## JavaScript string primitives

Charwise embeddings of the JavaScript string operations used by the
sources: `toLowerCase`, `trim`, `split`, `join`, `includes`,
`substring(0, n)` and `path.basename`. -/

/-- Embedding of JavaScript `a.includes(b)` on char lists: `needle` occurs
as a contiguous sublist of the haystack. -/
def subOf (needle : List Char) : List Char → Bool
  | [] => needle.isEmpty
  | c :: rest => needle.isPrefixOf (c :: rest) || subOf needle rest

/-- Embedding of JavaScript `s.toLowerCase()`. -/
def jsToLower (s : String) : String := ⟨s.data.map Char.toLower⟩

/-- Embedding of JavaScript `s.trim()`: drop whitespace from both ends. -/
def jsTrim (s : String) : String :=
  ⟨((s.data.dropWhile Char.isWhitespace).reverse.dropWhile Char.isWhitespace).reverse⟩

/-- Helper for `jsSplit`: accumulate the current chunk in reverse. -/
def splitAux (sep : Char) : List Char → List Char → List (List Char)
  | [], acc => [acc.reverse]
  | c :: rest, acc =>
    if c = sep then acc.reverse :: splitAux sep rest [] else splitAux sep rest (c :: acc)

/-- Embedding of JavaScript `s.split(sep)` for a one-character separator. -/
def jsSplit (sep : Char) (s : String) : List String :=
  (splitAux sep s.data []).map fun cs => (⟨cs⟩ : String)

/-- Embedding of JavaScript `parts.join(sep)`. -/
def jsJoin (sep : String) : List String → String
  | [] => ""
  | [x] => x
  | x :: rest => x ++ sep ++ jsJoin sep rest

/-- Embedding of JavaScript `s.includes(needle)`. -/
def jsIncludes (s needle : String) : Bool := subOf needle.data s.data

/-- Embedding of JavaScript `s.substring(0, n)`. -/
def jsSubstrTo (s : String) (n : Nat) : String := ⟨s.data.take n⟩

/-- Embedding of `path.basename`: the last `/`-separated component. -/
def basename (p : String) : String :=
  match (jsSplit '/' p).reverse with
  | [] => p
  | x :: _ => x

/-! ## Data model (spec section 3, `AIState` in both sources) -/

/-- One conversation turn: `\x7b role, content \x7d` in the sources. -/
structure Turn where
  role : String
  content : String
deriving DecidableEq

/-- One ingested file: `\x7b name, content \x7d` in the sources. -/
structure FileBlob where
  name : String
  content : String
deriving DecidableEq

/-- The closed six-value task category set of `AIState.taskType`. -/
inductive TaskType
  | writing
  | reading
  | qa
  | analysis
  | reasoning
  | creative
deriving DecidableEq

/-- A stored metadata value.  Pinecone metadata is duck typed in the
source; the model distinguishes string values from non-string (numeric)
values so that the `typeof content === "string"` guard of `searchPinecone`
is expressible.  JavaScript truthiness: `""` and `0` are falsy. -/
inductive MetaVal
  | strVal (s : String)
  | numVal (q : ℚ)
deriving DecidableEq

/-- JavaScript truthiness of a metadata value. -/
def MetaVal.truthy : MetaVal → Bool
  | .strVal s => s ≠ ""
  | .numVal q => q ≠ 0

/-- JavaScript `a || b` on possibly-undefined metadata values. -/
def jsOr (a b : Option MetaVal) : Option MetaVal :=
  match a with
  | some v => if v.truthy then some v else b
  | none => b

/-- Metadata of a stored vector record, as read back by `index.query`:
the fields `fullContent` and `content` that `searchPinecone` consults. -/
structure MatchMeta where
  fullContent : Option MetaVal
  content : Option MetaVal
deriving DecidableEq

/-- One match returned by the vector-index backend for a query. -/
structure QueryMatch where
  score : Option ℚ
  metadata : Option MatchMeta
deriving DecidableEq

/-- The orchestration state threaded through the pipeline, after the
`AIState` interface of both sources.  Optional fields are `Option`. -/
structure AIState where
  input : String
  files : List String
  fileContents : List FileBlob
  response : Option String
  conversationHistory : List Turn
  taskType : Option TaskType
  embeddings : Option (List ℚ)
  similarContent : Option (List String)
  reasoningSteps : Option (List String)
  memoryContext : Option String

/-- The value returned by `runAdvancedAIWorkflow` (lib variant, lines
565-592): on success the result fields, on failure only
`success := false` and the fixed error string. -/
structure RunResult where
  success : Bool
  response : Option String
  conversationHistory : Option (List Turn)
  taskType : Option TaskType
  reasoningSteps : Option (List String)
  similarContent : Option (List String)
  memoryContext : Option String
  error : Option String

/-- External collaborators of one invocation, modelled as opaque outcomes:
`none` models a thrown provider error.  `queryMatches` is, for a query
text, the similarity-ranked match list held by the vector-index backend;
the backend answers a query with at most `topK` of them. -/
structure Env where
  embedQuery : String → Option (List ℚ)
  queryMatches : String → List QueryMatch
  classifyReply : Option String
  completion : Option String
  readFileResult : String → Option String

/-! ## Memory store read path (`searchPinecone`, lib variant lines 118-145) -/

/-- The backend half of `index.query(\x7b vector, topK \x7d)`: the external
service returns at most `topK` of its ranked matches, most similar first. -/
def indexQueryTopK (ranked : List QueryMatch) (topK : Nat) : List QueryMatch :=
  ranked.take topK

/-- Embedding of the score guard `match.score && match.score > 0.7`:
an absent score is falsy, a zero score is falsy, otherwise compare. -/
def scoreOk (m : QueryMatch) : Bool :=
  match m.score with
  | none => false
  | some sc => decide (sc ≠ 0) && decide ((7 : ℚ)/10 < sc)

/-- Embedding of the content projection of `searchPinecone`:
`match.metadata?.fullContent || match.metadata?.content || ""` followed by
the `typeof content === "string"` normalisation. -/
def contentOf (m : QueryMatch) : String :=
  match m.metadata with
  | none => ""
  | some md =>
    match jsOr md.fullContent (jsOr md.content (some (MetaVal.strVal ""))) with
    | some (MetaVal.strVal s) => s
    | _ => ""

/-- The post-processing chain of `searchPinecone` applied to the backend
reply: filter by score, project the content, drop empty strings. -/
def searchPineconeMatches (ranked : List QueryMatch) (topK : Nat) : List String :=
  (((indexQueryTopK ranked topK).filter scoreOk).map contentOf).filter
    fun s => 0 < s.length

/-- Full `searchPinecone`: the query embedding is computed first and any
thrown error is caught, returning `[]` (lib variant lines 141-144). -/
def searchPinecone (env : Env) (query : String) (topK : Nat) : List String :=
  match env.embedQuery query with
  | none => []
  | some _ => searchPineconeMatches (env.queryMatches query) topK

/-! ## Context builder (`generateEmbeddings`, lib variant lines 170-197) -/

/-- One step of `new Set(xs)` insertion: keep the first occurrence. -/
def setInsert (acc : List String) (s : String) : List String :=
  if s ∈ acc then acc else acc ++ [s]

/-- Embedding of `Array.from(new Set(xs))`: insertion-order deduplication,
first occurrence wins. -/
def jsSetDedup (l : List String) : List String := l.foldl setInsert []

/-- The merge `Array.from(new Set([...similarContent, ...historySimilarContent])).slice(0, 5)`. -/
def mergeSimilarContent (a b : List String) : List String :=
  (jsSetDedup (a ++ b)).take 5

/-- The rendering of `memoryContext`: a labelled block when any match was
retained, the empty string otherwise. -/
def renderMemoryContext (l : List String) : String :=
  if 0 < l.length then "Relevant context from memory:\n" ++ jsJoin "\n\n" l else ""

/-- Embedding of `generateEmbeddings`: embed the input, query the memory
with the input and with the last 1000 characters of the joined history,
merge, deduplicate, cap at 5 and render.  A thrown embedding error is
caught and leaves the state unchanged (the source returns an empty patch). -/
def generateEmbeddings (env : Env) (st : AIState) : AIState :=
  match env.embedQuery st.input with
  | none => st
  | some emb =>
    let similar := searchPinecone env st.input 3
    let conversationContext :=
      jsSubstrTo (jsJoin " " (st.conversationHistory.map Turn.content)) 1000
    let historySimilar := searchPinecone env conversationContext 3
    let unique := mergeSimilarContent similar historySimilar
    { st with
      embeddings := some emb
      similarContent := some unique
      memoryContext := some (renderMemoryContext unique) }

/-! ## Task classifier (`classifyTask`, lib variant lines 200-270 and
part_000 lines 110-184) -/

/-- The valid category tokens accepted from the classification model. -/
def validCategories : List String :=
  ["writing", "reading", "qa", "analysis", "reasoning", "creative"]

/-- Parse a normalised model reply into a category: the source accepts the
reply only when it is exactly one of the six tokens. -/
def parseCategory (s : String) : Option TaskType :=
  if s = "writing" then some TaskType.writing
  else if s = "reading" then some TaskType.reading
  else if s = "qa" then some TaskType.qa
  else if s = "analysis" then some TaskType.analysis
  else if s = "reasoning" then some TaskType.reasoning
  else if s = "creative" then some TaskType.creative
  else none

/-- The keyword-matching fallback block shared by both classifier variants
(lib lines 241-268, part_000 lines 151-181).  `current` is the value the
task type keeps when no keyword family matches: the lib variant leaves the
existing value (always `qa` at that point), part_000 assigns `qa`
explicitly. -/
def keywordScan (input : String) (fileContents : List FileBlob) (current : TaskType) : TaskType :=
  let lowerInput := jsToLower input
  if jsIncludes lowerInput "write" || jsIncludes lowerInput "create" ||
      jsIncludes lowerInput "compose" then
    TaskType.writing
  else if fileContents.length > 0 then
    if jsIncludes lowerInput "analyze" || jsIncludes lowerInput "summarize" then
      TaskType.analysis
    else
      TaskType.reading
  else if jsIncludes lowerInput "think" || jsIncludes lowerInput "reason" ||
      jsIncludes lowerInput "logic" then
    TaskType.reasoning
  else if jsIncludes lowerInput "creative" || jsIncludes lowerInput "imagine" ||
      jsIncludes lowerInput "story" then
    TaskType.creative
  else
    current

/-- Embedding of the lib-variant `classifyTask`: the task type starts as
`qa`; a valid model reply (trimmed, lowercased, exactly one of the six
tokens) overwrites it; the keyword fallback then runs whenever the value
is still `qa` (the source condition `!taskType || taskType === "qa"`; the
first disjunct is never true because the value is initialised). -/
def classifyTask (modelReply : Option String) (input : String)
    (fileContents : List FileBlob) : TaskType :=
  let initial := TaskType.qa
  let taskType :=
    match modelReply with
    | some r =>
      match parseCategory (jsToLower (jsTrim r)) with
      | some c => c
      | none => initial
    | none => initial
  if taskType = TaskType.qa then keywordScan input fileContents taskType else taskType

/-- Embedding of the part_000 `classifyTask`: the model tier runs only if
embeddings are present; the task type starts undefined and the keyword
fallback runs only when the model tier produced no valid category. -/
def classifyTask0 (embeddings : Option (List ℚ)) (modelReply : Option String)
    (input : String) (fileContents : List FileBlob) : TaskType :=
  let fromModel : Option TaskType :=
    match embeddings, modelReply with
    | some _, some r => parseCategory (jsToLower (jsTrim r))
    | _, _ => none
  match fromModel with
  | some t => t
  | none => keywordScan input fileContents TaskType.qa

/-- Spec-side definition, written from the wording of spec section 4.3
tier 2 (for refinement comparison with the code embeddings): scan the
lowercased input for keyword families in the fixed precedence order,
defaulting to `qa`. -/
def specKeywordRules (input : String) (attachmentsPresent : Bool) : TaskType :=
  let s := jsToLower input
  if jsIncludes s "write" || jsIncludes s "create" || jsIncludes s "compose" then
    TaskType.writing
  else if attachmentsPresent then
    if jsIncludes s "analyze" || jsIncludes s "summarize" then TaskType.analysis
    else TaskType.reading
  else if jsIncludes s "think" || jsIncludes s "reason" || jsIncludes s "logic" then
    TaskType.reasoning
  else if jsIncludes s "creative" || jsIncludes s "imagine" || jsIncludes s "story" then
    TaskType.creative
  else
    TaskType.qa

/-! ## Reasoning-step extraction (`extractReasoningSteps`, part_000 lines
187-201; the lib variant differs only in anchoring `reasoning:` at the
line start) -/

/-- After at least one digit was read: skip further digits, then require a
stop character. -/
def digitsTail (stop : List Char) : List Char → Bool
  | [] => false
  | c :: rest => if c.isDigit then digitsTail stop rest else stop.contains c

/-- Match one or more digits followed by one of the stop characters, at
the head of the char list (the regex fragments `\d+[:]` and `\d+[.)]`). -/
def digitsThen (stop : List Char) : List Char → Bool
  | [] => false
  | c :: rest => c.isDigit && digitsTail stop rest

/-- Match the case-insensitive regex fragment `step \d+[:]` at the head. -/
def stepNumStart : List Char → Bool
  | s :: t :: e :: p :: sp :: rest =>
    s.toLower = 's' && t.toLower = 't' && e.toLower = 'e' && p.toLower = 'p' &&
      sp = ' ' && digitsThen [':'] rest
  | _ => false

/-- A line counts as a reasoning step: it matches
`/^(step \d+[:]|•|\d+[.)])/i` or its lowercasing contains `reasoning:`. -/
def isStepLine (line : String) : Bool :=
  stepNumStart line.data || "•".data.isPrefixOf line.data ||
    digitsThen ['.', ')'] line.data ||
    subOf "reasoning:".data (jsToLower line).data

/-- Embedding of `extractReasoningSteps`: collect the trimmed marker
lines; when none matches, the whole response is the single step. -/
def extractReasoningSteps (response : String) : List String :=
  let steps := ((jsSplit '\n' response).filter isStepLine).map jsTrim
  if steps.length > 0 then steps else [response]

/-! ## Task handlers (lib variant lines 273-498)

Each embedding is the success branch of the corresponding handler given
the text produced by its completion provider: the returned state patch
(response, optional reasoning steps, extended history).  The store-back
side effect is absorbed by its own try/catch in the source and does not
affect the returned state. -/

/-- The user turn appended by every handler. -/
def userTurn (input : String) : Turn := ⟨"user", input⟩

/-- The assistant turn appended by every handler. -/
def assistantTurn (text : String) : Turn := ⟨"assistant", text⟩

/-- Success branch of `handleWritingTask` (lib lines 304-311). -/
def handleWritingTask (st : AIState) (text : String) : AIState :=
  { st with
    response := some ("✍ Writing Assistant:\n" ++ text)
    conversationHistory :=
      st.conversationHistory ++ [userTurn st.input, assistantTurn text] }

/-- Success branch of `handleReadingTask` (lib lines 350-357). -/
def handleReadingTask (st : AIState) (text : String) : AIState :=
  { st with
    response := some ("📖 Reading Assistant:\n" ++ text)
    conversationHistory :=
      st.conversationHistory ++ [userTurn st.input, assistantTurn text] }

/-- Success branch of `handleQATask` (lib lines 388-395). -/
def handleQATask (st : AIState) (text : String) : AIState :=
  { st with
    response := some text
    conversationHistory :=
      st.conversationHistory ++ [userTurn st.input, assistantTurn text] }

/-- Success branch of `handleReasoningTask` (lib lines 428-436). -/
def handleReasoningTask (st : AIState) (text : String) : AIState :=
  { st with
    response := some ("🤔 Reasoning Process:\n" ++ text)
    reasoningSteps := some (extractReasoningSteps text)
    conversationHistory :=
      st.conversationHistory ++ [userTurn st.input, assistantTurn text] }

/-- Success branch of `handleCreativeTask` (lib lines 478-493). -/
def handleCreativeTask (st : AIState) (text : String) : AIState :=
  { st with
    response := some ("🎨 Creative Assistant:\n" ++ text)
    conversationHistory :=
      st.conversationHistory ++ [userTurn st.input, assistantTurn text] }

/-- The five handler nodes of the workflow graph. -/
inductive Handler
  | writing
  | reading
  | qa
  | reasoning
  | creative
deriving DecidableEq

/-- Dispatch to the success branch of one handler. -/
def applyHandler : Handler → AIState → String → AIState
  | .writing => handleWritingTask
  | .reading => handleReadingTask
  | .qa => handleQATask
  | .reasoning => handleReasoningTask
  | .creative => handleCreativeTask

/-- The task-specific error message each handler throws on a failed
completion-provider call. -/
def handlerErrorMessage : Handler → String
  | .writing => "Failed to generate writing content"
  | .reading => "Failed to generate reading content"
  | .qa => "Failed to generate response"
  | .reasoning => "Failed to process reasoning task"
  | .creative => "Failed to generate creative content"

/-- Run one handler against its completion-provider outcome: a failed
call re-throws as the handler error. -/
def runHandler (h : Handler) (st : AIState) (provider : Option String) :
    Except String AIState :=
  match provider with
  | none => Except.error (handlerErrorMessage h)
  | some t => Except.ok (applyHandler h st t)

/-! ## Dispatch (lib variant lines 542-553 and part_000 lines 490-508) -/

/-- The string name of a category, as carried in `state.taskType`. -/
def catName : TaskType → String
  | .writing => "writing"
  | .reading => "reading"
  | .qa => "qa"
  | .analysis => "analysis"
  | .reasoning => "reasoning"
  | .creative => "creative"

/-- The conditional-edge table of the lib variant (lines 545-552). -/
def conditionalEdges : List (String × String) :=
  [("writing", "handle_writing"), ("reading", "handle_reading"),
   ("qa", "handle_qa"), ("analysis", "handle_reading"),
   ("reasoning", "handle_reasoning"), ("creative", "handle_creative")]

/-- The routing key `state.taskType || "qa"` of the lib variant. -/
def routeKey (taskType : Option TaskType) : String :=
  match taskType with
  | none => "qa"
  | some c => catName c

/-- The lib-variant dispatch: look the routing key up in the edge table. -/
def dispatchTarget (taskType : Option TaskType) : Option String :=
  conditionalEdges.lookup (routeKey taskType)

/-- Embedding of the part_000 dispatch switch (lines 490-508): the state
field is duck typed there, so the routed value is a raw string; `||`
treats an absent or empty value as `qa` and the switch default returns the
qa handler. -/
def routeTask0 (taskType : Option String) : String :=
  let type :=
    match taskType with
    | none => "qa"
    | some s => if s = "" then "qa" else s
  if type = "writing" then "handle_writing"
  else if type = "reading" then "handle_reading"
  else if type = "analysis" ∨ type = "reasoning" then
    if type = "analysis" then "handle_reading" else "handle_reasoning"
  else if type = "creative" then "handle_creative"
  else "handle_qa"

/-- Map a target node name back to its handler. -/
def handlerOfTarget (target : String) : Handler :=
  if target = "handle_writing" then Handler.writing
  else if target = "handle_reading" then Handler.reading
  else if target = "handle_reasoning" then Handler.reasoning
  else if target = "handle_creative" then Handler.creative
  else Handler.qa

/-- The handler selected for a classified category in the lib variant. -/
def routeHandler (taskType : Option TaskType) : Handler :=
  match dispatchTarget taskType with
  | some target => handlerOfTarget target
  | none => Handler.qa

/-! ## Pipeline (`processFiles` and `runAdvancedAIWorkflow`, lib variant
lines 148-167 and 565-592) -/

/-- Embedding of `processFiles`: read each file, skipping per-file read
failures, keeping request order. -/
def processFiles (env : Env) (st : AIState) : AIState :=
  if st.files.isEmpty then { st with fileContents := [] }
  else
    { st with
      fileContents :=
        st.files.filterMap fun p =>
          (env.readFileResult p).map fun c => FileBlob.mk (basename p) c }

/-- Embedding of `runAdvancedAIWorkflow`: files, embeddings,
classification, dispatch to exactly one handler; a handler error is caught
at the boundary and converted to the structured failure result, which
carries neither a response nor a conversation history. -/
def run (env : Env) (input : String) (files : List String)
    (conversationHistory : List Turn) : RunResult :=
  let st0 : AIState :=
    { input := input, files := files, fileContents := [], response := none,
      conversationHistory := conversationHistory, taskType := none,
      embeddings := none, similarContent := none, reasoningSteps := none,
      memoryContext := none }
  let st1 := processFiles env st0
  let st2 := generateEmbeddings env st1
  let st3 :=
    { st2 with
      taskType := some (classifyTask env.classifyReply st2.input st2.fileContents) }
  match runHandler (routeHandler st3.taskType) st3 env.completion with
  | Except.ok st4 =>
    { success := true, response := st4.response,
      conversationHistory := some st4.conversationHistory,
      taskType := st4.taskType, reasoningSteps := st4.reasoningSteps,
      similarContent := st4.similarContent, memoryContext := st4.memoryContext,
      error := none }
  | Except.error _ =>
    { success := false, response := none, conversationHistory := none,
      taskType := none, reasoningSteps := none, similarContent := none,
      memoryContext := none, error := some "Failed to process request" }

/-! ## Cosine similarity (part_000 lines 79-86)

The floating-point arithmetic of the source is idealised over the real
numbers; `Math.sqrt` becomes `Real.sqrt`. -/

/-- Embedding of the dot product
`a.reduce((sum, val, i) => sum + val * b[i], 0)`, evaluated only when the
two lists have equal length. -/
def dotReduce (a b : List ℝ) : ℝ :=
  (a.zip b).foldl (fun s p => s + p.1 * p.2) 0

/-- Embedding of `v.reduce((sum, val) => sum + val * val, 0)`. -/
def sumSquares (v : List ℝ) : ℝ :=
  v.foldl (fun s x => s + x * x) 0

/-- The magnitude `Math.sqrt(sumSquares v)` of a vector. -/
noncomputable def magnitude (v : List ℝ) : ℝ := Real.sqrt (sumSquares v)

/-- Embedding of `cosineSimilarity`: zero on dimension mismatch or a
zero-magnitude operand, otherwise the normalised dot product.  The
null-operand guard of the source has no counterpart on lists. -/
noncomputable def cosineSimilarity (a b : List ℝ) : ℝ :=
  if a.length ≠ b.length then 0
  else if magnitude a = 0 ∨ magnitude b = 0 then 0
  else dotReduce a b / (magnitude a * magnitude b)

/-! ## Concrete data for the witnesses -/

/-- A ranked backend match with a high score and a stored full content. -/
def sampleMatch : QueryMatch :=
  ⟨some 1, some ⟨some (MetaVal.strVal "hello"), none⟩⟩

/-- An environment whose completion provider always fails. -/
def envNoCompletion : Env :=
  { embedQuery := fun _ => none, queryMatches := fun _ => [],
    classifyReply := none, completion := none, readFileResult := fun _ => none }

/-! ## Theorems -/

/-- Every category value is one of the six members of the closed set. -/
theorem taskType_mem_six (t : TaskType) :
    t ∈ [TaskType.writing, TaskType.reading, TaskType.qa, TaskType.analysis,
      TaskType.reasoning, TaskType.creative] := by
  cases t <;> simp

/-- Claim C1: when both the embedding provider and the model-based
classification provider fail, both classifier variants return exactly the
category chosen by the keyword rules of spec section 4.3 in their fixed
precedence order, and that category is one of the six fixed ones. -/
theorem claim1_classify_fallback (input : String) (fileContents : List FileBlob) :
    classifyTask none input fileContents
        = specKeywordRules input (!fileContents.isEmpty)
    ∧ classifyTask0 none none input fileContents
        = specKeywordRules input (!fileContents.isEmpty)
    ∧ classifyTask none input fileContents
        ∈ [TaskType.writing, TaskType.reading, TaskType.qa, TaskType.analysis,
           TaskType.reasoning, TaskType.creative] := by
  refine ⟨?_, ?_, taskType_mem_six _⟩ <;> cases fileContents <;>
    simp [classifyTask, classifyTask0, specKeywordRules, keywordScan]

/-- Claim C2: the dispatch table routes each classified category to
exactly one handler, with analysis routed to the reading handler, and an
unrecognised or missing category routed to the qa handler. -/
theorem claim2_dispatch_table :
    (dispatchTarget (some TaskType.writing) = some "handle_writing"
      ∧ dispatchTarget (some TaskType.reading) = some "handle_reading"
      ∧ dispatchTarget (some TaskType.analysis) = some "handle_reading"
      ∧ dispatchTarget (some TaskType.qa) = some "handle_qa"
      ∧ dispatchTarget (some TaskType.reasoning) = some "handle_reasoning"
      ∧ dispatchTarget (some TaskType.creative) = some "handle_creative"
      ∧ dispatchTarget none = some "handle_qa")
    ∧ (routeTask0 (some "writing") = "handle_writing"
      ∧ routeTask0 (some "reading") = "handle_reading"
      ∧ routeTask0 (some "analysis") = "handle_reading"
      ∧ routeTask0 (some "qa") = "handle_qa"
      ∧ routeTask0 (some "reasoning") = "handle_reasoning"
      ∧ routeTask0 (some "creative") = "handle_creative"
      ∧ routeTask0 none = "handle_qa")
    ∧ ∀ s : String, s ∉ validCategories → routeTask0 (some s) = "handle_qa" := by
  refine ⟨⟨rfl, rfl, rfl, rfl, rfl, rfl, rfl⟩, ⟨rfl, rfl, rfl, rfl, rfl, rfl, rfl⟩, ?_⟩
  intro s hs
  simp only [validCategories, List.mem_cons, List.not_mem_nil, or_false, not_or] at hs
  obtain ⟨h1, h2, h3, h4, h5, h6⟩ := hs
  unfold routeTask0
  by_cases h0 : s = ""
  · subst h0; rfl
  · simp [h0, h1, h2, h4, h5, h6]

/-- Claim C2 witness: an unrecognised category string is dispatched to
the qa handler. -/
theorem claim2_dispatch_table_witness : routeTask0 (some "banana") = "handle_qa" :=
  claim2_dispatch_table.2.2 "banana" (by decide)

/-- Claim C4: after any successful handler call, the conversation history
grows by exactly the user turn and the assistant turn, with the prior
history preserved unchanged as a prefix. -/
theorem claim4_history_append (h : Handler) (st : AIState) (text : String) :
    (applyHandler h st text).conversationHistory.length
        = st.conversationHistory.length + 2
    ∧ (applyHandler h st text).conversationHistory.take st.conversationHistory.length
        = st.conversationHistory
    ∧ (applyHandler h st text).conversationHistory
        = st.conversationHistory ++ [userTurn st.input, assistantTurn text] := by
  cases h <;>
    exact ⟨by simp [applyHandler, handleWritingTask, handleReadingTask, handleQATask,
        handleReasoningTask, handleCreativeTask],
      List.take_left _ _,
      rfl⟩

/-- Claim C7 counterexample: the reply `qa` is, after trimming and
lowercasing, a valid category token, yet the lib-variant classifier does
not assign it: the keyword rules still run and reclassify the input as
writing. -/
theorem claim7_counterexample :
    jsToLower (jsTrim "qa") ∈ validCategories
    ∧ classifyTask (some "qa") "please write a poem" [] = TaskType.writing
    ∧ TaskType.writing ≠ TaskType.qa := by
  decide

/-- Claim C7 as amended: a valid model reply other than `qa` is assigned
as the category without consulting the keyword rules, in both classifier
variants; the part_000 variant assigns every valid reply including `qa`;
but in the lib variant a valid reply of exactly `qa` sends the input
through the keyword scan, which may override it. -/
theorem claim7_amended_fallback (reply input : String) (fileContents : List FileBlob)
    (c : TaskType) :
    (parseCategory (jsToLower (jsTrim reply)) = some c → c ≠ TaskType.qa →
      classifyTask (some reply) input fileContents = c)
    ∧ (parseCategory (jsToLower (jsTrim reply)) = some c →
      ∀ e : List ℚ, classifyTask0 (some e) (some reply) input fileContents = c)
    ∧ (jsToLower (jsTrim reply) = "qa" →
      classifyTask (some reply) input fileContents
        = keywordScan input fileContents TaskType.qa) := by
  refine ⟨?_, ?_, ?_⟩
  · intro hp hne
    simp [classifyTask, hp, hne]
  · intro hp e
    simp [classifyTask0, hp]
  · intro hq
    simp [classifyTask, hq, parseCategory]

/-- Claim C7 witness for the amended statement: a valid non-qa reply is
assigned verbatim in both variants, and a valid qa reply in the lib
variant goes to the keyword scan. -/
theorem claim7_amended_fallback_witness :
    classifyTask (some " Writing ") "hello" [] = TaskType.writing
    ∧ classifyTask0 (some [1]) (some " Writing ") "hello" [] = TaskType.writing
    ∧ classifyTask (some "qa") "hello" [] = keywordScan "hello" [] TaskType.qa :=
  ⟨(claim7_amended_fallback " Writing " "hello" [] TaskType.writing).1
      (by decide) (by decide),
   (claim7_amended_fallback " Writing " "hello" [] TaskType.writing).2.1
      (by decide) [1],
   (claim7_amended_fallback "qa" "hello" [] TaskType.qa).2.2 (by decide)⟩

/-- Claim C3: a memory-store query returns at most `topK` strings, every
returned string comes from a ranked match whose score is not below the 0.7
threshold, and the content projection prefers the stored full content over
the truncated excerpt whenever it is available as a non-empty string. -/
theorem claim3_query_bounds (ranked : List QueryMatch) (topK : Nat) :
    (searchPineconeMatches ranked topK).length ≤ topK
    ∧ (∀ s ∈ searchPineconeMatches ranked topK,
        ∃ m ∈ ranked, (∃ sc, m.score = some sc ∧ (7 : ℚ)/10 ≤ sc) ∧ s = contentOf m)
    ∧ (∀ (m : QueryMatch) (md : MatchMeta) (fc : String),
        m.metadata = some md → md.fullContent = some (MetaVal.strVal fc) →
        fc ≠ "" → contentOf m = fc) := by
  refine ⟨?_, ?_, ?_⟩
  · calc (searchPineconeMatches ranked topK).length
        ≤ (((indexQueryTopK ranked topK).filter scoreOk).map contentOf).length :=
          List.length_filter_le _ _
      _ = ((indexQueryTopK ranked topK).filter scoreOk).length := List.length_map _ _
      _ ≤ (indexQueryTopK ranked topK).length := List.length_filter_le _ _
      _ ≤ topK := List.length_take_le _ _
  · intro s hs
    simp only [searchPineconeMatches, List.mem_filter, List.mem_map] at hs
    obtain ⟨⟨m, ⟨hmem, hok⟩, hms⟩, -⟩ := hs
    refine ⟨m, List.take_subset _ _ hmem, ?_, hms.symm⟩
    unfold scoreOk at hok
    cases hsc : m.score with
    | none => rw [hsc] at hok; exact absurd hok (by simp)
    | some sc =>
      rw [hsc] at hok
      simp only [Bool.and_eq_true, decide_eq_true_eq] at hok
      exact ⟨sc, rfl, le_of_lt hok.2⟩
  · intro m md fc h1 h2 h3
    simp [contentOf, h1, h2, jsOr, MetaVal.truthy, h3]

/-- Claim C3 witness: a singleton ranked list with a qualifying match
yields a result within the cap and originating from that match. -/
theorem claim3_query_bounds_witness :
    (searchPineconeMatches [sampleMatch] 3).length ≤ 3
    ∧ ∃ m ∈ [sampleMatch],
        (∃ sc, m.score = some sc ∧ (7 : ℚ)/10 ≤ sc) ∧ "hello" = contentOf m :=
  ⟨(claim3_query_bounds [sampleMatch] 3).1,
   (claim3_query_bounds [sampleMatch] 3).2.1 "hello" (by
    norm_num [searchPineconeMatches, indexQueryTopK, sampleMatch, scoreOk,
      contentOf, jsOr, MetaVal.truthy, List.filter, List.take]
    decide)⟩

/-- Claim C10: every string returned by a memory-store query is
non-empty; matches whose metadata yields an empty or non-string content
value are filtered out before the result is returned. -/
theorem claim10_nonempty_results (ranked : List QueryMatch) (topK : Nat) :
    ∀ s ∈ searchPineconeMatches ranked topK, s ≠ "" ∧ 0 < s.length := by
  intro s hs
  simp only [searchPineconeMatches, List.mem_filter, decide_eq_true_eq] at hs
  refine ⟨?_, hs.2⟩
  intro h
  rw [h] at hs
  exact absurd hs.2 (by decide)

/-- Claim C10 witness: the qualifying sample match yields a non-empty
string. -/
theorem claim10_nonempty_results_witness : "hello" ≠ "" ∧ 0 < "hello".length :=
  claim10_nonempty_results [sampleMatch] 3 "hello" (by
    norm_num [searchPineconeMatches, indexQueryTopK, sampleMatch, scoreOk,
      contentOf, jsOr, MetaVal.truthy, List.filter, List.take]
    decide)

/-- Claim C5: when the dispatched handler completion-provider call fails,
the orchestrator returns the structured failure result: success is false,
the error is the fixed non-empty message, and the result carries neither a
partial response nor any conversation history, so the caller-supplied
history stands unchanged. -/
theorem claim5_run_failure (env : Env) (input : String) (files : List String)
    (conversationHistory : List Turn) (h : env.completion = none) :
    (run env input files conversationHistory).success = false
    ∧ (run env input files conversationHistory).error
        = some "Failed to process request"
    ∧ "Failed to process request" ≠ ""
    ∧ (run env input files conversationHistory).response = none
    ∧ (run env input files conversationHistory).conversationHistory = none := by
  unfold run
  rw [h]
  exact ⟨rfl, rfl, by decide, rfl, rfl⟩

/-- Claim C5 witness: a concrete environment with a failing completion
provider produces the structured failure result. -/
theorem claim5_run_failure_witness :
    (run envNoCompletion "hello" [] []).success = false
    ∧ (run envNoCompletion "hello" [] []).error = some "Failed to process request" :=
  ⟨(claim5_run_failure envNoCompletion "hello" [] [] rfl).1,
   (claim5_run_failure envNoCompletion "hello" [] [] rfl).2.1⟩

/-- Membership after insertion-order deduplication: an element is in the
fold exactly when it is in the accumulator or in the remaining input. -/
theorem mem_foldl_setInsert (l : List String) :
    ∀ (acc : List String) (s : String),
      s ∈ l.foldl setInsert acc ↔ s ∈ acc ∨ s ∈ l := by
  induction l with
  | nil => intro acc s; simp
  | cons a t ih =>
    intro acc s
    rw [List.foldl_cons, ih]
    unfold setInsert
    by_cases ha : a ∈ acc
    · simp only [if_pos ha]
      constructor
      · rintro (h | h)
        · exact Or.inl h
        · exact Or.inr (List.mem_cons_of_mem a h)
      · rintro (h | h)
        · exact Or.inl h
        · rcases List.mem_cons.mp h with h | h
          · exact Or.inl (h ▸ ha)
          · exact Or.inr h
    · simp only [if_neg ha, List.mem_append, List.mem_singleton, List.mem_cons]
      tauto

/-- Insertion-order deduplication preserves the no-duplicates property of
the accumulator. -/
theorem nodup_foldl_setInsert (l : List String) :
    ∀ acc : List String, acc.Nodup → (l.foldl setInsert acc).Nodup := by
  induction l with
  | nil => intro acc h; exact h
  | cons a t ih =>
    intro acc h
    rw [List.foldl_cons]
    refine ih _ ?_
    unfold setInsert
    by_cases ha : a ∈ acc
    · simpa [if_pos ha] using h
    · simp [if_neg ha, List.nodup_append, h, ha]

/-- Folding further input into an accumulator only appends: the new
elements come from the input and are not already in the accumulator. -/
theorem foldl_setInsert_decomp (l : List String) :
    ∀ acc : List String, ∃ rest, l.foldl setInsert acc = acc ++ rest
      ∧ ∀ s ∈ rest, s ∈ l ∧ s ∉ acc := by
  induction l with
  | nil => intro acc; exact ⟨[], by simp, by simp⟩
  | cons a t ih =>
    intro acc
    rw [List.foldl_cons]
    unfold setInsert
    by_cases ha : a ∈ acc
    · rw [if_pos ha]
      obtain ⟨rest, heq, hmem⟩ := ih acc
      exact ⟨rest, heq, fun s hs =>
        ⟨List.mem_cons_of_mem a (hmem s hs).1, (hmem s hs).2⟩⟩
    · rw [if_neg ha]
      obtain ⟨rest, heq, hmem⟩ := ih (acc ++ [a])
      refine ⟨a :: rest, by simpa using heq, ?_⟩
      intro s hs
      rcases List.mem_cons.mp hs with h | h
      · exact ⟨h ▸ List.mem_cons_self a t, h ▸ ha⟩
      · have := hmem s h
        simp only [List.mem_append, List.mem_singleton, not_or] at this
        exact ⟨List.mem_cons_of_mem a this.1, this.2.1⟩

/-- Claim C6: the context-builder merge removes exact duplicates (first
occurrence wins), keeps at most five entries with the input-based matches
ordered before the history-based ones, renders an empty memory context
exactly when nothing was retained, and never keeps two copies of the same
string. -/
theorem claim6_merge (a b : List String) :
    (mergeSimilarContent a b).Nodup
    ∧ (mergeSimilarContent a b).length ≤ 5
    ∧ (∃ rest, jsSetDedup (a ++ b) = jsSetDedup a ++ rest
        ∧ (∀ s ∈ rest, s ∈ b ∧ s ∉ a)
        ∧ mergeSimilarContent a b = (jsSetDedup a ++ rest).take 5)
    ∧ (renderMemoryContext (mergeSimilarContent a b) = ""
        ↔ mergeSimilarContent a b = [])
    ∧ (∀ s, (mergeSimilarContent a b).count s ≤ 1) := by
  have hnodup : (mergeSimilarContent a b).Nodup := by
    unfold mergeSimilarContent jsSetDedup
    exact (List.take_sublist _ _).nodup
      (nodup_foldl_setInsert _ _ List.nodup_nil)
  refine ⟨hnodup, List.length_take_le _ _, ?_, ?_, ?_⟩
  · unfold jsSetDedup
    rw [List.foldl_append]
    obtain ⟨rest, heq, hmem⟩ := foldl_setInsert_decomp b (a.foldl setInsert [])
    refine ⟨rest, heq, ?_, ?_⟩
    · intro s hs
      refine ⟨(hmem s hs).1, ?_⟩
      intro hsa
      exact (hmem s hs).2 ((mem_foldl_setInsert a [] s).mpr (Or.inr hsa))
    · unfold mergeSimilarContent jsSetDedup
      rw [List.foldl_append, heq]
  · unfold renderMemoryContext
    cases hm : mergeSimilarContent a b with
    | nil => simp
    | cons x t =>
      simp only [List.length_cons, Nat.zero_lt_succ, if_pos]
      constructor
      · intro h
        have hlen := congrArg String.length h
        rw [String.length_append] at hlen
        have e1 : "Relevant context from memory:\n".length = 30 := by decide
        have e2 : "".length = 0 := rfl
        rw [e1, e2] at hlen
        omega
      · intro h
        exact absurd h (by simp)
  · intro s
    exact List.nodup_iff_count_le_one.mp hnodup s

/-- Claim C6 witness: a duplicated input entry is retained once. -/
theorem claim6_merge_witness :
    (mergeSimilarContent ["dup", "dup"] ["dup", "other"]).count "dup" ≤ 1
    ∧ mergeSimilarContent ["dup", "dup"] ["dup", "other"] = ["dup", "other"] :=
  ⟨(claim6_merge ["dup", "dup"] ["dup", "other"]).2.2.2.2 "dup", by decide⟩

/-- Claim C8: when the marker-matching lines of a response are exactly
three lines prefixed Step 1, Step 2, Step 3, the extractor returns exactly
those three lines trimmed; when no line matches a marker, it returns the
whole response as a single step. -/
theorem claim8_reasoning_steps (r a b c : String) :
    ((jsSplit '\n' r).filter isStepLine
        = ["Step 1:" ++ a, "Step 2:" ++ b, "Step 3:" ++ c] →
      extractReasoningSteps r
        = [jsTrim ("Step 1:" ++ a), jsTrim ("Step 2:" ++ b), jsTrim ("Step 3:" ++ c)])
    ∧ ((jsSplit '\n' r).filter isStepLine = [] →
      extractReasoningSteps r = [r]) := by
  constructor
  · intro h
    simp [extractReasoningSteps, h]
  · intro h
    simp [extractReasoningSteps, h]

/-- Claim C8 witness: a concrete three-step response yields the three
trimmed steps, and a marker-free response is returned whole. -/
theorem claim8_reasoning_steps_witness :
    extractReasoningSteps "intro\nStep 1: gather\nStep 2: deduce\nStep 3: conclude"
      = ["Step 1: gather", "Step 2: deduce", "Step 3: conclude"]
    ∧ extractReasoningSteps "plain answer" = ["plain answer"] := by
  constructor
  · have h := (claim8_reasoning_steps
      "intro\nStep 1: gather\nStep 2: deduce\nStep 3: conclude"
      " gather" " deduce" " conclude").1 (by decide)
    rw [h]; decide
  · exact (claim8_reasoning_steps "plain answer" "" "" "").2 (by decide)

/-- The dot product of a vector with itself is its sum of squares. -/
theorem dotReduce_self (v : List ℝ) : dotReduce v v = sumSquares v := by
  unfold dotReduce sumSquares
  suffices h : ∀ s : ℝ, (v.zip v).foldl (fun s p => s + p.1 * p.2) s
      = v.foldl (fun s x => s + x * x) s from h 0
  induction v with
  | nil => intro s; rfl
  | cons x t ih => intro s; exact ih (s + x * x)

/-- A sum of squares is nonnegative. -/
theorem sumSquares_nonneg (v : List ℝ) : 0 ≤ sumSquares v := by
  unfold sumSquares
  suffices h : ∀ s : ℝ, 0 ≤ s → 0 ≤ v.foldl (fun s x => s + x * x) s from
    h 0 le_rfl
  induction v with
  | nil => intro s hs; exact hs
  | cons x t ih => intro s hs; exact ih _ (add_nonneg hs (mul_self_nonneg x))

/-- Claim C9: cosine similarity of a vector of nonzero magnitude with
itself is exactly one (in the real-number idealisation of the
floating-point arithmetic), and it is zero whenever an operand has zero
magnitude or the dimensions differ. -/
theorem claim9_cosine :
    (∀ v : List ℝ, magnitude v ≠ 0 → cosineSimilarity v v = 1)
    ∧ (∀ a b : List ℝ, magnitude a = 0 ∨ magnitude b = 0 ∨ a.length ≠ b.length →
        cosineSimilarity a b = 0) := by
  constructor
  · intro v hmag
    have hS : sumSquares v ≠ 0 := by
      intro h
      exact hmag (by rw [magnitude, h, Real.sqrt_zero])
    unfold cosineSimilarity
    rw [if_neg (by simp), if_neg (by simp [hmag])]
    rw [dotReduce_self, magnitude, Real.mul_self_sqrt (sumSquares_nonneg v)]
    exact div_self hS
  · intro a b h
    unfold cosineSimilarity
    split_ifs with h1 h2
    · rfl
    · rfl
    · rcases h with h | h | h
      · exact absurd (Or.inl h) h2
      · exact absurd (Or.inr h) h2
      · exact absurd h h1

/-- Claim C9 witness: the one-dimensional unit vector has magnitude one
and self-similarity one, and a dimension mismatch yields zero. -/
theorem claim9_cosine_witness :
    magnitude [(1 : ℝ)] ≠ 0
    ∧ cosineSimilarity [(1 : ℝ)] [(1 : ℝ)] = 1
    ∧ cosineSimilarity ([] : List ℝ) [(1 : ℝ)] = 0 := by
  have hm : magnitude [(1 : ℝ)] = 1 := by
    have hs : sumSquares [(1 : ℝ)] = 1 := by norm_num [sumSquares]
    rw [magnitude, hs, Real.sqrt_one]
  have hne : magnitude [(1 : ℝ)] ≠ 0 := by rw [hm]; norm_num
  exact ⟨hne, claim9_cosine.1 [(1 : ℝ)] hne,
    claim9_cosine.2 [] [(1 : ℝ)] (Or.inr (Or.inr (by simp)))⟩

end FixTheDoc
